import Mathlib

/-!
Verification of `usdt_watcher.py`: a one-shot Tron USDT blacklist/balance
watcher.  The script's pure logic — hex-word interpretation of the contract
result, balance normalization through Python `Decimal`, fixed-digit display
formatting, state-file handling and the unfreeze-transition alert — is
embedded shallowly below.  Python `Decimal` values are modelled by `PyDec`
(finite values as exact rationals, plus NaN and signed infinity); machine
strings are modelled as `List Char` with `String` at the API boundary.

Modelling notes, applying throughout:
* `Decimal` construction from a string is exact.  Division by `Decimal("1000000")`
  is modelled exactly over ℚ; the Python context rounds quotients to 28
  significant digits, which differs only for inputs beyond 10^28 subunits,
  far outside the token's value range, and no theorem below depends on that
  regime.
* `Decimal.quantize` with the default context rounds half-to-even and signals
  `InvalidOperation` when the result coefficient would exceed 28 digits or the
  operand is infinite; a quiet NaN operand yields NaN without signalling.
* Numeric string grammars (Python `int(s, 10)`, `int(s, 16)`, `Decimal(s)`)
  are modelled without the underscore digit separators and non-ASCII digits
  Python also accepts, and without signalling NaNs; no input in this
  development uses those forms.
-/

/-! ## Characters and digits -/

/-- The whitespace characters Python `str.strip` removes (ASCII subset). -/
def isPySpace (c : Char) : Bool :=
  c = ' ' || c = '\t' || c = '\n' || c = '\r' || c = '\x0b' || c = '\x0c'

/-- Python `str.strip`: drop whitespace from both ends. -/
def stripChars (l : List Char) : List Char :=
  ((l.dropWhile isPySpace).reverse.dropWhile isPySpace).reverse

/-- Lower-case each character (`str.lower` on the ASCII letters that matter here). -/
def lowerChars (l : List Char) : List Char :=
  l.map Char.toLower

def isDigitChar (c : Char) : Bool :=
  '0' ≤ c && c ≤ '9'

def digitVal (c : Char) : Nat :=
  c.toNat - '0'.toNat

/-- The decimal digit character for `k < 10`. -/
def digitChar (k : Nat) : Char :=
  if k = 0 then '0' else if k = 1 then '1' else if k = 2 then '2'
  else if k = 3 then '3' else if k = 4 then '4' else if k = 5 then '5'
  else if k = 6 then '6' else if k = 7 then '7' else if k = 8 then '8' else '9'

/-- Value of a decimal digit string, most significant first. -/
def digitsVal (l : List Char) : Nat :=
  l.foldl (fun a c => a * 10 + digitVal c) 0

/-! ## Decimal rendering of naturals (the digits `str`/`format` emit) -/

/-- Decimal digits of `n`, most significant first; empty for `0`.  Structural
recursion on a fuel argument (any `fuel ≥ n` gives the digits of `n`), so the
kernel can evaluate it. -/
def natToDecAuxF : Nat → Nat → List Char
  | 0, _ => []
  | fuel + 1, n => if n = 0 then [] else natToDecAuxF fuel (n / 10) ++ [digitChar (n % 10)]

def natToDecAux (n : Nat) : List Char :=
  natToDecAuxF n n

/-- Decimal rendering of a natural number. -/
def natToDecChars (n : Nat) : List Char :=
  if n = 0 then ['0'] else natToDecAux n

/-- The low `n` decimal digits of `c`, exactly `n` characters. -/
def fracDigits (c : Nat) : Nat → List Char
  | 0 => []
  | k + 1 => fracDigits (c / 10) k ++ [digitChar (c % 10)]

/-- Chunks of three, taken from the front. -/
def chunk3 : List Char → List (List Char)
  | [] => []
  | [a] => [[a]]
  | [a, b] => [[a, b]]
  | a :: b :: c :: r => [a, b, c] :: chunk3 r

def joinComma : List (List Char) → List Char
  | [] => []
  | [g] => g
  | g :: gs => g ++ ',' :: joinComma gs

/-- Python `f"{n:,}"` for a natural number: decimal digits grouped in threes
from the right, separated by commas. -/
def commaChars (n : Nat) : List Char :=
  joinComma (((chunk3 (natToDecChars n).reverse).map List.reverse).reverse)

/-- Python `f"{i:,}"` for an `int`. -/
def intCommaChars (i : Int) : List Char :=
  (if i < 0 then ['-'] else []) ++ commaChars i.toNat

/-! ## Python `Decimal` values

Finite values are exact rationals.  Every rational a definition constructs is
built with `Rat.divInt` and integer arithmetic, which the kernel can evaluate;
bridge lemmas below relate those constructions to `/`, `⌊⌋` and `|·|` for the
abstractly stated theorems. -/

inductive PyDec where
  | fin (q : ℚ)
  | nan
  | inf (pos : Bool)
deriving DecidableEq

/-- `±coeff · 10^e` as a rational. -/
def decSignedVal (neg : Bool) (c : Nat) (e : Int) : ℚ :=
  let m : Int := if neg then -(c : Int) else (c : Int)
  match e with
  | .ofNat k => Rat.divInt (m * (10 : Int) ^ k) 1
  | .negSucc k => Rat.divInt m ((10 : Int) ^ (k + 1))

/-- `q / 10^6`: the subunit scaling `Decimal(...) / Decimal("1000000")`.
Exact; the context precision of 28 significant digits would round only
quotients beyond any amount this token can represent. -/
def qDiv1e6 (q : ℚ) : ℚ :=
  Rat.divInt q.num ((q.den : Int) * 1000000)

def pyDecDiv1e6 : PyDec → PyDec
  | .fin q => .fin (qDiv1e6 q)
  | .nan => .nan
  | .inf s => .inf s

/-- `|q| · 10^n`. -/
def qAbsScale (q : ℚ) (n : Nat) : ℚ :=
  Rat.divInt ((q.num.natAbs : Int) * (10 : Int) ^ n) (q.den : Int)

/-- Round to the nearest integer, ties to the even integer
(`decimal.ROUND_HALF_EVEN`).  `2·den·(x − ⌊x⌋)` is compared with `den` to
classify the fractional part against one half using integers only. -/
def roundHalfEven (x : ℚ) : ℤ :=
  let f := x.floor
  let twiceRem : Int := 2 * (x.num - f * (x.den : Int))
  if twiceRem < (x.den : Int) then f
  else if (x.den : Int) < twiceRem then f + 1
  else if f % 2 = 0 then f else f + 1

/-- Outcome of `Decimal.quantize` to a fixed number of fractional digits:
sign and coefficient (the value is `±coeff · 10^(-decimals)`), or NaN. -/
inductive QRes where
  | nan
  | fin (neg : Bool) (coeff : Nat)
deriving DecidableEq

/-- `d.quantize(Decimal("1." + "0"*decimals))` under the default context:
half-even rounding to `decimals` fractional digits; `InvalidOperation`
(`none`) on an infinite operand or when the result coefficient would exceed
the context precision of 28 digits; a quiet NaN passes through quietly. -/
def pyQuantize (d : PyDec) (decimals : Nat) : Option QRes :=
  match d with
  | .nan => some .nan
  | .inf _ => none
  | .fin q =>
    let c := (roundHalfEven (qAbsScale q decimals)).toNat
    if c < 10 ^ 28 then some (.fin (decide (q < 0)) c) else none

/-! ## Parsers (Python `int(s)`, `int(s, 16)`, `Decimal(s)`) -/

/-- Nonempty all-digit strings and their value. -/
def parseDecCore (l : List Char) : Option Nat :=
  if l ≠ [] ∧ l.all isDigitChar then some (digitsVal l) else none

/-- Sign handling of `int(s)` (base 10) on the stripped characters. -/
def pyIntSigned (l : List Char) : Option Int :=
  match l with
  | [] => none
  | c :: r =>
    if c = '+' then (parseDecCore r).map (fun n => (n : Int))
    else if c = '-' then (parseDecCore r).map (fun n => -(n : Int))
    else (parseDecCore (c :: r)).map (fun n => (n : Int))

/-- Python `int(s)` (base 10): optional surrounding whitespace, optional
sign, nonempty digits. -/
def pyIntParse10 (l : List Char) : Option Int :=
  pyIntSigned (stripChars l)

def hexDigitVal (c : Char) : Option Nat :=
  if '0' ≤ c ∧ c ≤ '9' then some (c.toNat - '0'.toNat)
  else if 'a' ≤ c ∧ c ≤ 'f' then some (c.toNat - 'a'.toNat + 10)
  else if 'A' ≤ c ∧ c ≤ 'F' then some (c.toNat - 'A'.toNat + 10)
  else none

def hexDigitsVal (l : List Char) : Option Nat :=
  l.foldl
    (fun a c =>
      match a, hexDigitVal c with
      | some v, some d => some (v * 16 + d)
      | _, _ => none)
    (some 0)

def parseHexCore (l : List Char) : Option Nat :=
  if l = [] then none else hexDigitsVal l

/-- Hex digits with an optional `0x`/`0X` marker in front. -/
def parseHexPrefixed (l : List Char) : Option Nat :=
  match l with
  | a :: b :: r =>
    if a = '0' ∧ (b = 'x' ∨ b = 'X') then parseHexCore r
    else parseHexCore (a :: b :: r)
  | _ => parseHexCore l

/-- Sign handling of `int(s, 16)` on the stripped characters. -/
def hexSigned (l : List Char) : Option Int :=
  match l with
  | [] => none
  | c :: r =>
    if c = '+' then (parseHexPrefixed r).map (fun n => (n : Int))
    else if c = '-' then (parseHexPrefixed r).map (fun n => -(n : Int))
    else (parseHexPrefixed (c :: r)).map (fun n => (n : Int))

/-- Python `int(s, 16)`: optional surrounding whitespace, optional sign,
optional `0x` marker, nonempty hex digits. -/
def intOfHexStr (s : String) : Option Int :=
  hexSigned (stripChars s.data)

/-- The exponent part of a `Decimal` literal, after the `e`. -/
def parseExpPart (l : List Char) : Option Int :=
  match l with
  | [] => none
  | c :: r =>
    if c = '+' then (parseDecCore r).map (fun n => (n : Int))
    else if c = '-' then (parseDecCore r).map (fun n => -(n : Int))
    else (parseDecCore (c :: r)).map (fun n => (n : Int))

/-- A `Decimal` mantissa `digits | digits.digits | .digits | digits.`, with
sign and exponent already known. -/
def parseMant (l : List Char) (neg : Bool) (e : Int) : Option PyDec :=
  let ip := l.takeWhile (fun c => c != '.')
  match l.dropWhile (fun c => c != '.') with
  | [] => (parseDecCore l).map (fun n => PyDec.fin (decSignedVal neg n e))
  | _ :: fp =>
    if (ip.all isDigitChar ∧ fp.all isDigitChar) ∧ (ip ≠ [] ∨ fp ≠ []) then
      some (.fin (decSignedVal neg (digitsVal (ip ++ fp)) (e - fp.length)))
    else none

/-- `nan` optionally followed by diagnostic digits (lower-cased input). -/
def isNanBody (l : List Char) : Bool :=
  match l with
  | 'n' :: 'a' :: 'n' :: ds => ds.all isDigitChar
  | _ => false

def parseFiniteNum (l : List Char) (neg : Bool) : Option PyDec :=
  let mant := l.takeWhile (fun c => c != 'e')
  match l.dropWhile (fun c => c != 'e') with
  | [] => parseMant mant neg 0
  | _ :: et => (parseExpPart et).bind (fun ex => parseMant mant neg ex)

def parseBody (l : List Char) (neg : Bool) : Option PyDec :=
  if l = ['i', 'n', 'f'] ∨ l = ['i', 'n', 'f', 'i', 'n', 'i', 't', 'y'] then
    some (.inf (!neg))
  else if isNanBody l then some .nan
  else parseFiniteNum l neg

/-- Sign handling of `Decimal(s)` on the case-folded characters. -/
def decSigned (l : List Char) : Option PyDec :=
  match l with
  | [] => none
  | c :: r =>
    if c = '+' then parseBody r false
    else if c = '-' then parseBody r true
    else parseBody (c :: r) false

/-- Python `Decimal(s)` on an already-stripped string (its only caller here,
`parse_usdt_balance`, strips first; `Decimal` would strip again).  Case is
folded first, as `Decimal`'s grammar is case-insensitive. -/
def pyDecimalParse (l : List Char) : Option PyDec :=
  decSigned (lowerChars l)

/-! ## `fmt_like_site` -/

/-- `format(d2, "f")` body for value `±c · 10^(-decimals)`. -/
def formatQ (neg : Bool) (c : Nat) (decimals : Nat) : List Char :=
  let body :=
    if decimals = 0 then natToDecChars c
    else natToDecChars (c / 10 ^ decimals) ++ '.' :: fracDigits c decimals
  if neg then '-' :: body else body

/-- `format(d2, "f")` for a quantize result (`format(Decimal("NaN"), "f")`
is the three characters `NaN`). -/
def formatQRes (r : QRes) (decimals : Nat) : List Char :=
  match r with
  | .nan => ['N', 'a', 'N']
  | .fin neg c => formatQ neg c decimals

/-- `fmt_like_site`, at character level: quantize (falling back to quantized
zero when `quantize` signals `InvalidOperation` — `Decimal("0").quantize(q)`
itself never signals), fixed-point format, split once at the decimal point,
reparse the integer part with `int(...)` (0 on a `ValueError`) and rebuild it
with thousands separators. -/
def fmtChars (d : PyDec) (decimals : Nat) : List Char :=
  let d2 :=
    match pyQuantize d decimals with
    | some r => r
    | none => QRes.fin false 0
  let s := formatQRes d2 decimals
  if s.contains '.' then
    let whole := s.takeWhile (fun c => c != '.')
    let frac := (s.dropWhile (fun c => c != '.')).tail
    let wholeI := (pyIntParse10 whole).getD 0
    intCommaChars wholeI ++ '.' :: frac
  else s

def fmt_like_site (d : PyDec) (decimals : Nat) : String :=
  String.mk (fmtChars d decimals)

/-! ## `parse_usdt_balance` -/

/-- `parse_usdt_balance`: `str(raw).strip()`; empty or `"none"` (any case)
gives 0; a string with a decimal point parses directly as human-scaled, one
without parses as an integer subunit count divided by 10^6; a parse failure
(`InvalidOperation`/`ValueError`) is swallowed to 0.  The model receives the
already-`str()`-ed raw value.  (On `"snan"` Python builds a signalling NaN
whose division then signals `InvalidOperation`, also caught to 0; the model
rejects the literal and lands in the same branch, returning the same 0.) -/
def parse_usdt_balance (raw : String) : PyDec :=
  let s := stripChars raw.data
  if s = [] ∨ lowerChars s = ['n', 'o', 'n', 'e'] then .fin 0
  else if s.contains '.' then
    match pyDecimalParse s with
    | some d => d
    | none => .fin 0
  else
    match pyDecimalParse s with
    | some d => pyDecDiv1e6 d
    | none => .fin 0

/-! ## Gateway responses and `get_balances` -/

def USDT_CONTRACT : String := "TR7NHqjeKQxGTCi8q8ZY4pL8otSzgjLj6t"

/-- One element of the account's `trc20` list: a JSON object mapping token
contract addresses to raw balance values (modelled after `str()`), or any
non-object JSON value, which the scan skips via `isinstance(token_obj, dict)`. -/
inductive TrcItem where
  | dict (entries : List (String × String))
  | nondict
deriving DecidableEq

/-- One element of the account endpoint's `data` list.  `balance` is the
native-coin amount in sun, an integer in the gateway's JSON (`data.get
("balance", 0)` defaults a missing field to 0); `trc20` likewise defaults to
an empty list. -/
structure AccountData where
  balance : Option Int
  trc20 : Option (List TrcItem)
deriving DecidableEq

/-- The JSON body of the account endpoint: `resp.get("data", [])`. -/
structure AccountResponse where
  data : Option (List AccountData)
deriving DecidableEq

/-- The scan `for token_obj in data.get("trc20", []): if isinstance(token_obj,
dict) and USDT_CONTRACT in token_obj: usdt_raw = token_obj[USDT_CONTRACT];
break`, with the initial `usdt_raw = "0"`. -/
def findUsdtRaw : List TrcItem → String
  | [] => "0"
  | .dict es :: r =>
    match (es.find? (fun p => p.1 = USDT_CONTRACT)).map (fun p => p.2) with
    | some v => v
    | none => findUsdtRaw r
  | .nondict :: r => findUsdtRaw r

/-- `get_balances` after a successful HTTP exchange: `(usdt, trx)`.
`Decimal(str(balance))` is exact, and the division by `Decimal("1000000")`
is modelled exactly (see the header note). -/
def get_balances (resp : AccountResponse) : PyDec × PyDec :=
  match resp.data.getD [] with
  | [] => (.fin 0, .fin 0)
  | d :: _ =>
    let trx := PyDec.fin (Rat.divInt (d.balance.getD 0) 1000000)
    let usdt := parse_usdt_balance (findUsdtRaw (d.trc20.getD []))
    (usdt, trx)

/-- Spec-side description (4.2): the value of the first entry of the
token-holdings list keyed by the known token contract, if any. -/
def specFirstTokenEntry : List TrcItem → Option String
  | [] => none
  | .dict es :: r =>
    match (es.find? (fun p => p.1 = USDT_CONTRACT)).map (fun p => p.2) with
    | some v => some v
    | none => specFirstTokenEntry r
  | .nondict :: r => specFirstTokenEntry r

/-! ## `is_blacklisted` -/

/-- Python exceptions that can escape the helpers and `main`. -/
inductive PyErr where
  | httpError
  | runtimeEmptyResult
  | valueError
  | attributeError
  | telegramError
  | ioError
deriving DecidableEq

/-- The JSON body of the trigger-constant-contract endpoint:
`r.json().get("constant_result", [])`. -/
structure TriggerResponse where
  constant_result : Option (List String)
deriving DecidableEq

/-- The result handling of `is_blacklisted` after a successful HTTP exchange:
an empty `constant_result` raises `RuntimeError`, otherwise the first hex
word is interpreted as an integer (`ValueError` if malformed, which would
propagate) and compared with 1. -/
def is_blacklisted_resp (resp : TriggerResponse) : Except PyErr Bool :=
  match resp.constant_result.getD [] with
  | [] => .error .runtimeEmptyResult
  | w :: _ =>
    match intOfHexStr w with
    | none => .error .valueError
    | some v => .ok (decide (v = 1))

/-- `is_blacklisted` including the HTTP exchange: `none` models a
non-2xx response, on which `raise_for_status` raises. -/
def is_blacklisted_run : Option TriggerResponse → Except PyErr Bool
  | none => .error .httpError
  | some resp => is_blacklisted_resp resp

/-! ## State file and `main` -/

/-- JSON values, as far as the state file is concerned: booleans and objects
are distinguished, everything else (numbers, strings, arrays, null) only
matters as "not a dict" / "not `True`". -/
inductive JVal where
  | jbool (b : Bool)
  | jobj (entries : List (String × JVal))
  | other

/-- `load_prev_state`: the parsed content of `state.json`, or `{}` when
opening, reading or JSON-decoding fails (`except Exception: return {}`).
`none` models any such failure. -/
def load_prev_state : Option JVal → JVal
  | none => .jobj []
  | some v => v

/-- Python `prev.get("blocked")`: `AttributeError` when `prev` is not a dict
(that exception is not caught anywhere), otherwise the value or `None`. -/
def pyDictGet (v : JVal) (k : String) : Except PyErr (Option JVal) :=
  match v with
  | .jobj es => .ok ((es.find? (fun p => p.1 = k)).map (fun p => p.2))
  | _ => .error .attributeError

/-- Python `x is True` for an optional JSON value (`None` for a missing
key): only the boolean `True` itself qualifies. -/
def isTrueLit : Option JVal → Bool
  | some (.jbool b) => b
  | some (.jobj _) => false
  | some .other => false
  | none => false

/-- The messages `main` can hand to `send_telegram`, in order: the report
(carrying the two formatted balances and the status flag), then on an
unfreeze transition the two extra emphasis messages.  `errorNote` is the
best-effort failure notification the specification describes; `main` never
constructs it. -/
inductive Msg where
  | report (usdtTxt trxTxt : String) (blocked : Bool)
  | unfreeze1
  | unfreeze2
  | errorNote
deriving DecidableEq

/-- One run's environment: the state file's readable content, the two
gateway exchanges (`none` = HTTP failure), the successive outcomes of
`send_telegram` attempts (`getD true`: attempts beyond the list succeed), and
whether writing the state file succeeds. -/
structure Env where
  stateFile : Option JVal
  trigger : Option TriggerResponse
  account : Option AccountResponse
  sendOutcomes : List Bool
  saveOk : Bool

def sendOk (env : Env) (i : Nat) : Bool :=
  env.sendOutcomes.getD i true

/-- `main()`, returning the `send_telegram` attempts made, in order, and the
outcome (an uncaught exception propagates to the interpreter, which then
exits nonzero).  Failures happen in program order: `prev.get`, the blacklist
query, the balance query, the report send, the conditional unfreeze sends,
the state write. -/
def mainRun (env : Env) : List Msg × Except PyErr Unit :=
  match pyDictGet (load_prev_state env.stateFile) "blocked" with
  | .error e => ([], .error e)
  | .ok prev_blocked =>
    match is_blacklisted_run env.trigger with
    | .error e => ([], .error e)
    | .ok blocked =>
      match env.account with
      | none => ([], .error .httpError)
      | some resp =>
        let bal := get_balances resp
        let report := Msg.report (fmt_like_site bal.1 2) (fmt_like_site bal.2 6) blocked
        if !(sendOk env 0) then ([report], .error .telegramError)
        else if isTrueLit prev_blocked && !blocked then
          if !(sendOk env 1) then ([report, .unfreeze1], .error .telegramError)
          else if !(sendOk env 2) then ([report, .unfreeze1, .unfreeze2], .error .telegramError)
          else if env.saveOk then ([report, .unfreeze1, .unfreeze2], .ok ())
          else ([report, .unfreeze1, .unfreeze2], .error .ioError)
        else if env.saveOk then ([report], .ok ())
        else ([report], .error .ioError)

/-! ## Claim-support definitions -/

/-- The 64-hex-character result word `0000...0001` of the spec. -/
def oneWord64 : String :=
  "0000000000000000000000000000000000000000000000000000000000000001"

/-- The 64-hex-character result word `0000...0000` of the spec. -/
def zeroWord64 : String :=
  "0000000000000000000000000000000000000000000000000000000000000000"

/-- A decimal amount that is an actual non-negative number (NaN and the
infinities do not qualify). -/
def decNonneg : PyDec → Prop
  | .fin q => 0 ≤ q
  | .nan => False
  | .inf _ => False

/-! ## Character facts -/

theorem digitChar_isDigit {k : Nat} (h : k < 10) : isDigitChar (digitChar k) = true := by
  interval_cases k <;> decide

theorem digitVal_digitChar {k : Nat} (h : k < 10) : digitVal (digitChar k) = k := by
  interval_cases k <;> decide

theorem isDigit_bne_dot {c : Char} (h : isDigitChar c = true) : (c != '.') = true := by
  by_cases e : c = '.'
  · subst e; exact absurd h (by decide)
  · simpa [bne_iff_ne] using e

theorem isDigit_ne_plus {c : Char} (h : isDigitChar c = true) : c ≠ '+' := by
  intro e; subst e; exact absurd h (by decide)

theorem isDigit_ne_minus {c : Char} (h : isDigitChar c = true) : c ≠ '-' := by
  intro e; subst e; exact absurd h (by decide)

theorem isDigit_not_space {c : Char} (h : isDigitChar c = true) : isPySpace c = false := by
  by_cases e1 : c = ' '
  · subst e1; exact absurd h (by decide)
  by_cases e2 : c = '\t'
  · subst e2; exact absurd h (by decide)
  by_cases e3 : c = '\n'
  · subst e3; exact absurd h (by decide)
  by_cases e4 : c = '\r'
  · subst e4; exact absurd h (by decide)
  by_cases e5 : c = '\x0b'
  · subst e5; exact absurd h (by decide)
  by_cases e6 : c = '\x0c'
  · subst e6; exact absurd h (by decide)
  simp [isPySpace, e1, e2, e3, e4, e5, e6]

/-! ## Digit string facts -/

theorem natToDecAuxF_congr :
    ∀ n f1 f2 : Nat, n ≤ f1 → n ≤ f2 → natToDecAuxF f1 n = natToDecAuxF f2 n := by
  intro n
  induction n using Nat.strong_induction_on with
  | _ n ih =>
    intro f1 f2 h1 h2
    by_cases hn : n = 0
    · subst hn; cases f1 <;> cases f2 <;> simp [natToDecAuxF]
    · cases f1 with
      | zero => omega
      | succ a =>
        cases f2 with
        | zero => omega
        | succ b =>
          simp only [natToDecAuxF, hn, if_false]
          have hlt : n / 10 < n := Nat.div_lt_self (Nat.pos_of_ne_zero hn) (by norm_num)
          rw [ih (n / 10) hlt a b (by omega) (by omega)]

theorem natToDecAux_eq {n : Nat} (h : n ≠ 0) :
    natToDecAux n = natToDecAux (n / 10) ++ [digitChar (n % 10)] := by
  cases n with
  | zero => exact absurd rfl h
  | succ m =>
    show natToDecAuxF (m + 1) (m + 1) = _
    simp only [natToDecAuxF, Nat.succ_ne_zero, if_false]
    have hlt : (m + 1) / 10 < m + 1 := Nat.div_lt_self (Nat.succ_pos m) (by norm_num)
    rw [natToDecAuxF_congr ((m + 1) / 10) m ((m + 1) / 10) (by omega) (le_refl _)]
    rfl

theorem natToDecAux_all_digit : ∀ n : Nat, ∀ c ∈ natToDecAux n, isDigitChar c = true := by
  intro n
  induction n using Nat.strong_induction_on with
  | _ n ih =>
    by_cases hn : n = 0
    · subst hn; intro c hc; simp [natToDecAux, natToDecAuxF] at hc
    · rw [natToDecAux_eq hn]
      intro c hc
      rcases List.mem_append.1 hc with h1 | h2
      · exact ih (n / 10) (Nat.div_lt_self (Nat.pos_of_ne_zero hn) (by norm_num)) c h1
      · rw [List.mem_singleton.1 h2]
        exact digitChar_isDigit (Nat.mod_lt n (by norm_num))

theorem natToDecChars_all_digit : ∀ n : Nat, ∀ c ∈ natToDecChars n, isDigitChar c = true := by
  intro n c hc
  unfold natToDecChars at hc
  by_cases hn : n = 0
  · rw [if_pos hn] at hc; rw [List.mem_singleton.1 hc]; decide
  · rw [if_neg hn] at hc; exact natToDecAux_all_digit n c hc

theorem natToDecChars_ne_nil (n : Nat) : natToDecChars n ≠ [] := by
  unfold natToDecChars
  by_cases hn : n = 0
  · simp [hn]
  · rw [if_neg hn, natToDecAux_eq hn]; simp

theorem digitsVal_append_singleton (l : List Char) (c : Char) :
    digitsVal (l ++ [c]) = 10 * digitsVal l + digitVal c := by
  simp only [digitsVal, List.foldl_append, List.foldl_cons, List.foldl_nil]
  ring

theorem digitsVal_natToDecAux : ∀ n : Nat, digitsVal (natToDecAux n) = n := by
  intro n
  induction n using Nat.strong_induction_on with
  | _ n ih =>
    by_cases hn : n = 0
    · subst hn; rfl
    · rw [natToDecAux_eq hn, digitsVal_append_singleton,
        ih (n / 10) (Nat.div_lt_self (Nat.pos_of_ne_zero hn) (by norm_num)),
        digitVal_digitChar (Nat.mod_lt n (by norm_num))]
      omega

theorem digitsVal_natToDecChars (n : Nat) : digitsVal (natToDecChars n) = n := by
  unfold natToDecChars
  by_cases hn : n = 0
  · simp [hn]; rfl
  · rw [if_neg hn]; exact digitsVal_natToDecAux n

/-! ## Stripping, splitting and the reparse round trip -/

theorem dropWhile_eq_self_of_all {p : Char → Bool} {l : List Char}
    (h : ∀ c ∈ l, p c = false) : l.dropWhile p = l := by
  cases l with
  | nil => rfl
  | cons a t =>
    rw [List.dropWhile_cons, h a (List.mem_cons_self a t)]
    simp

theorem stripChars_eq_self {l : List Char}
    (h : ∀ c ∈ l, isPySpace c = false) : stripChars l = l := by
  unfold stripChars
  rw [dropWhile_eq_self_of_all h,
    dropWhile_eq_self_of_all (fun c hc => h c (List.mem_reverse.1 hc)),
    List.reverse_reverse]

theorem parseDecCore_digits {l : List Char} (h1 : l ≠ [])
    (h2 : ∀ c ∈ l, isDigitChar c = true) : parseDecCore l = some (digitsVal l) := by
  unfold parseDecCore
  rw [if_pos ⟨h1, List.all_eq_true.mpr h2⟩]

theorem pyIntParse10_natToDecChars (m : Nat) :
    pyIntParse10 (natToDecChars m) = some (m : Int) := by
  have hd := natToDecChars_all_digit m
  have hs : stripChars (natToDecChars m) = natToDecChars m :=
    stripChars_eq_self (fun c hc => isDigit_not_space (hd c hc))
  show pyIntSigned (stripChars (natToDecChars m)) = some (m : Int)
  rw [hs]
  cases hnc : natToDecChars m with
  | nil => exact absurd hnc (natToDecChars_ne_nil m)
  | cons a t =>
    have ha : isDigitChar a = true := by
      have := hd a; rw [hnc] at this; exact this (List.mem_cons_self a t)
    simp only [pyIntSigned, if_neg (isDigit_ne_plus ha), if_neg (isDigit_ne_minus ha)]
    rw [parseDecCore_digits (by simp) (by intro c hc; apply hd; rw [hnc]; exact hc)]
    have hv : digitsVal (a :: t) = m := by
      rw [← hnc]; exact digitsVal_natToDecChars m
    rw [hv]
    rfl

theorem takeWhile_append_stop {A B : List Char} {p : Char → Bool} {b : Char}
    (hA : ∀ c ∈ A, p c = true) (hb : p b = false) :
    (A ++ b :: B).takeWhile p = A := by
  induction A with
  | nil => simp [List.takeWhile_cons, hb]
  | cons a t ih =>
    rw [List.cons_append, List.takeWhile_cons, hA a (List.mem_cons_self a t)]
    simp only [if_true]
    rw [ih (fun c hc => hA c (List.mem_cons_of_mem a hc))]

theorem dropWhile_append_stop {A B : List Char} {p : Char → Bool} {b : Char}
    (hA : ∀ c ∈ A, p c = true) (hb : p b = false) :
    (A ++ b :: B).dropWhile p = b :: B := by
  induction A with
  | nil => simp [List.dropWhile_cons, hb]
  | cons a t ih =>
    rw [List.cons_append, List.dropWhile_cons, hA a (List.mem_cons_self a t)]
    simp only [if_true]
    exact ih (fun c hc => hA c (List.mem_cons_of_mem a hc))

theorem contains_append_dot (A B : List Char) : (A ++ '.' :: B).contains '.' = true := by
  induction A with
  | nil => simp [List.contains]
  | cons a t ih =>
    rw [List.cons_append]
    simp only [List.contains] at ih ⊢
    rw [List.elem_cons]
    split <;> simp [ih]

/-! ## Rational bridges -/

theorem ratFloor_eq (q : ℚ) : q.floor = ⌊q⌋ := rfl

theorem roundHalfEven_nonneg {x : ℚ} (h : 0 ≤ x) : 0 ≤ roundHalfEven x := by
  unfold roundHalfEven
  have hf : 0 ≤ x.floor := by
    rw [ratFloor_eq]; exact Int.le_floor.mpr (by exact_mod_cast h)
  dsimp only
  split_ifs <;> omega

theorem qAbsScale_eq (q : ℚ) (n : Nat) : qAbsScale q n = |q| * 10 ^ n := by
  unfold qAbsScale
  rw [Rat.divInt_eq_div]
  push_cast
  have habs : |q| = |(q.num : ℚ)| / (q.den : ℚ) := by
    rw [← Rat.num_div_den q, abs_div, abs_of_nonneg (by positivity : (0 : ℚ) ≤ (q.den : ℚ))]
    rw [Rat.num_div_den q]
  rw [habs]
  ring

theorem qDiv1e6_eq (q : ℚ) : qDiv1e6 q = q / 1000000 := by
  unfold qDiv1e6
  rw [Rat.divInt_eq_div]
  push_cast
  rw [div_mul_eq_div_div, Rat.num_div_den]

theorem qDiv1e6_nonneg {q : ℚ} (h : 0 ≤ q) : 0 ≤ qDiv1e6 q := by
  rw [qDiv1e6_eq]
  positivity

theorem divInt_cast_div (b : Int) : Rat.divInt b 1000000 = (b : ℚ) / 1000000 := by
  rw [Rat.divInt_eq_div]
  norm_num

theorem pyQuantize_zero (n : Nat) : pyQuantize (.fin 0) n = some (.fin false 0) := by
  have hscale : qAbsScale 0 n = 0 := by
    rw [qAbsScale_eq]; simp
  have hround : roundHalfEven 0 = 0 := by
    unfold roundHalfEven
    norm_num [ratFloor_eq]
  simp only [pyQuantize, hscale, hround]
  norm_num

theorem isTrueLit_iff (pb : Option JVal) : isTrueLit pb = true ↔ pb = some (JVal.jbool true) := by
  constructor
  · intro h
    cases pb with
    | none => simp [isTrueLit] at h
    | some v =>
      cases v with
      | jbool b =>
        cases b with
        | true => rfl
        | false => simp [isTrueLit] at h
      | jobj es => simp [isTrueLit] at h
      | other => simp [isTrueLit] at h
  · rintro rfl
    rfl

theorem isTrueLit_eq_false {pb : Option JVal} (h : pb ≠ some (JVal.jbool true)) :
    isTrueLit pb = false := by
  cases hb : isTrueLit pb
  · rfl
  · exact absurd ((isTrueLit_iff pb).1 hb) h

theorem findUsdtRaw_eq (l : List TrcItem) :
    findUsdtRaw l = (specFirstTokenEntry l).getD "0" := by
  induction l with
  | nil => rfl
  | cons a t ih =>
    cases a with
    | dict es =>
      simp only [findUsdtRaw, specFirstTokenEntry]
      cases (es.find? (fun p => p.1 = USDT_CONTRACT)).map (fun p => p.2) with
      | none => exact ih
      | some w => rfl
    | nondict =>
      simpa only [findUsdtRaw, specFirstTokenEntry] using ih

theorem findUsdtRaw_of_spec_some {l : List TrcItem} {v : String}
    (hv : specFirstTokenEntry l = some v) : findUsdtRaw l = v := by
  rw [findUsdtRaw_eq, hv]
  rfl

theorem findUsdtRaw_of_spec_none {l : List TrcItem}
    (hv : specFirstTokenEntry l = none) : findUsdtRaw l = "0" := by
  rw [findUsdtRaw_eq, hv]
  rfl

/-! ## The claims -/

/-- Claim C1: the blacklist query returns a single boolean computed by
interpreting the first entry of the returned result list as a hexadecimal
integer and testing it for equality with 1; on any non-empty result list the
word `0000...0001` yields `true`, and `0000...0000` — or any word whose
integer value is not 1 — yields `false`. -/
theorem C1_blacklist_decision :
    (∀ (resp : TriggerResponse) (w : String) (rest : List String) (v : Int),
        resp.constant_result.getD [] = w :: rest →
        intOfHexStr w = some v →
        is_blacklisted_resp resp = .ok (decide (v = 1)))
    ∧ (∀ (resp : TriggerResponse) (rest : List String),
        resp.constant_result.getD [] = oneWord64 :: rest →
        is_blacklisted_resp resp = .ok true)
    ∧ (∀ (resp : TriggerResponse) (rest : List String),
        resp.constant_result.getD [] = zeroWord64 :: rest →
        is_blacklisted_resp resp = .ok false) := by
  have main : ∀ (resp : TriggerResponse) (w : String) (rest : List String) (v : Int),
      resp.constant_result.getD [] = w :: rest →
      intOfHexStr w = some v →
      is_blacklisted_resp resp = .ok (decide (v = 1)) := by
    intro resp w rest v h hw
    simp only [is_blacklisted_resp, h, hw]
  refine ⟨main, ?_, ?_⟩
  · intro resp rest h
    simpa using main resp oneWord64 rest 1 h (by decide)
  · intro resp rest h
    simpa using main resp zeroWord64 rest 0 h (by decide)

/-- Witness for C1 at concrete inputs: the word `"02"` parses to 2 ≠ 1 and
yields `false`; the two spec words yield `true` and `false`. -/
theorem C1_blacklist_decision_witness :
    intOfHexStr "02" = some 2
    ∧ is_blacklisted_resp ⟨some ["02"]⟩ = .ok false
    ∧ is_blacklisted_resp ⟨some [oneWord64]⟩ = .ok true
    ∧ is_blacklisted_resp ⟨some [zeroWord64]⟩ = .ok false := by
  refine ⟨by decide, ?_, ?_, ?_⟩
  · simpa using C1_blacklist_decision.1 ⟨some ["02"]⟩ "02" [] 2 rfl (by decide)
  · exact C1_blacklist_decision.2.1 ⟨some [oneWord64]⟩ [] rfl
  · exact C1_blacklist_decision.2.2 ⟨some [zeroWord64]⟩ [] rfl

/-- Claim C2: a gateway response whose contract-result list is empty makes
the blacklist query raise a fatal `RuntimeError` instead of returning a
status, and the error propagates through `main` — no retry, no default
value: the run ends in that error with no messages sent. -/
theorem C2_empty_result_fatal :
    ∀ resp : TriggerResponse, resp.constant_result.getD [] = [] →
      is_blacklisted_resp resp = .error .runtimeEmptyResult
      ∧ (∀ env : Env, env.trigger = some resp →
          ∀ pb, pyDictGet (load_prev_state env.stateFile) "blocked" = .ok pb →
            mainRun env = ([], .error .runtimeEmptyResult)) := by
  intro resp h
  have hbl : is_blacklisted_resp resp = .error .runtimeEmptyResult := by
    simp only [is_blacklisted_resp, h]
  refine ⟨hbl, ?_⟩
  intro env htr pb hpb
  simp only [mainRun, hpb, is_blacklisted_run, htr, hbl]

/-- Witness for C2: an empty `constant_result` list on a concrete run. -/
theorem C2_empty_result_fatal_witness :
    is_blacklisted_resp ⟨some []⟩ = .error .runtimeEmptyResult
    ∧ mainRun ⟨none, some ⟨some []⟩, some ⟨some []⟩, [], true⟩
        = ([], .error .runtimeEmptyResult) := by
  refine ⟨(C2_empty_result_fatal ⟨some []⟩ rfl).1, ?_⟩
  exact (C2_empty_result_fatal ⟨some []⟩ rfl).2
    ⟨none, some ⟨some []⟩, some ⟨some []⟩, [], true⟩ rfl none rfl

/-- Claim C4: with an empty `data` list the balance query returns `(0, 0)`
without raising; otherwise the native balance is the integer subunit amount
divided by 1,000,000, and the token balance is the normalized value of the
first token-holdings entry keyed by the known token contract, or zero when
no such entry exists. -/
theorem C4_balance_query :
    (∀ resp : AccountResponse, resp.data.getD [] = [] →
        get_balances resp = (.fin 0, .fin 0))
    ∧ (∀ (resp : AccountResponse) (d : AccountData) (rest : List AccountData),
        resp.data.getD [] = d :: rest →
        (get_balances resp).2 = .fin ((d.balance.getD 0 : ℚ) / 1000000)
        ∧ (∀ v, specFirstTokenEntry (d.trc20.getD []) = some v →
            (get_balances resp).1 = parse_usdt_balance v)
        ∧ (specFirstTokenEntry (d.trc20.getD []) = none →
            (get_balances resp).1 = .fin 0)) := by
  constructor
  · intro resp h
    simp only [get_balances, h]
  · intro resp d rest h
    refine ⟨?_, ?_, ?_⟩
    · simp only [get_balances, h]
      rw [divInt_cast_div]
    · intro v hv
      simp only [get_balances, h]
      rw [findUsdtRaw_of_spec_some hv]
    · intro hv
      simp only [get_balances, h]
      rw [findUsdtRaw_of_spec_none hv]
      decide

/-- Witness for C4: an empty-data response gives `(0, 0)`; a response with a
balance of 5 sun and a USDT holding of 1500000 subunits resolves both
balances as claimed. -/
theorem C4_balance_query_witness :
    get_balances ⟨some []⟩ = (.fin 0, .fin 0)
    ∧ (get_balances ⟨some [⟨some 5, some [.dict [(USDT_CONTRACT, "1500000")]]⟩]⟩).2
        = .fin ((5 : ℚ) / 1000000)
    ∧ (get_balances ⟨some [⟨some 5, some [.dict [(USDT_CONTRACT, "1500000")]]⟩]⟩).1
        = parse_usdt_balance "1500000" := by
  refine ⟨C4_balance_query.1 ⟨some []⟩ rfl, ?_, ?_⟩
  · simpa using
      (C4_balance_query.2 ⟨some [⟨some 5, some [.dict [(USDT_CONTRACT, "1500000")]]⟩]⟩
        ⟨some 5, some [.dict [(USDT_CONTRACT, "1500000")]]⟩ [] rfl).1
  · exact (C4_balance_query.2 ⟨some [⟨some 5, some [.dict [(USDT_CONTRACT, "1500000")]]⟩]⟩
      ⟨some 5, some [.dict [(USDT_CONTRACT, "1500000")]]⟩ [] rfl).2.1 "1500000" (by decide)

/-- `Decimal("none")` (any case) is a parse failure. -/
theorem pyDecimalParse_none_chars {t : List Char}
    (h : lowerChars t = ['n', 'o', 'n', 'e']) : pyDecimalParse t = none := by
  show decSigned (lowerChars t) = none
  rw [h]
  rfl

/-- Claim C3: balance normalization parses strings with a decimal point
directly as human-scaled decimals, treats strings without one as integer
subunit counts divided by 1,000,000, and swallows every parse failure
(empty, malformed, non-numeric) to exactly zero; in particular
`parseBalance("123.45") = 123.45`, `parseBalance("123450000") = 123.45`,
`parseBalance("") = 0` and `parseBalance("abc") = 0`. -/
theorem C3_parse_balance :
    (∀ (raw : String) (d : PyDec),
        (stripChars raw.data).contains '.' = true →
        pyDecimalParse (stripChars raw.data) = some d →
        parse_usdt_balance raw = d)
    ∧ (∀ (raw : String) (d : PyDec),
        (stripChars raw.data).contains '.' = false →
        pyDecimalParse (stripChars raw.data) = some d →
        parse_usdt_balance raw = pyDecDiv1e6 d)
    ∧ (∀ raw : String,
        pyDecimalParse (stripChars raw.data) = none →
        parse_usdt_balance raw = .fin 0)
    ∧ parse_usdt_balance "123.45" = .fin (123.45 : ℚ)
    ∧ parse_usdt_balance "123450000" = .fin (123.45 : ℚ)
    ∧ parse_usdt_balance "" = .fin 0
    ∧ parse_usdt_balance "abc" = .fin 0 := by
  refine ⟨?_, ?_, ?_, ?_, ?_, ?_, ?_⟩
  · intro raw d hdot hp
    have hcase : ¬(stripChars raw.data = [] ∨
        lowerChars (stripChars raw.data) = ['n', 'o', 'n', 'e']) := by
      rintro (h | h)
      · rw [h] at hdot; exact absurd hdot (by decide)
      · rw [pyDecimalParse_none_chars h] at hp; exact Option.noConfusion hp
    simp only [parse_usdt_balance, if_neg hcase, hdot, if_true, hp]
  · intro raw d hdot hp
    have hcase : ¬(stripChars raw.data = [] ∨
        lowerChars (stripChars raw.data) = ['n', 'o', 'n', 'e']) := by
      rintro (h | h)
      · rw [h] at hp; exact Option.noConfusion hp
      · rw [pyDecimalParse_none_chars h] at hp; exact Option.noConfusion hp
    simp only [parse_usdt_balance, if_neg hcase, hdot, Bool.false_eq_true, if_false, hp]
  · intro raw hp
    by_cases hcase : stripChars raw.data = [] ∨
        lowerChars (stripChars raw.data) = ['n', 'o', 'n', 'e']
    · simp only [parse_usdt_balance, if_pos hcase]
    · cases hdot : (stripChars raw.data).contains '.' with
      | true => simp only [parse_usdt_balance, if_neg hcase, hdot, if_true, hp]
      | false =>
        simp only [parse_usdt_balance, if_neg hcase, hdot, Bool.false_eq_true, if_false, hp]
  · have h1 : parse_usdt_balance "123.45" = .fin (Rat.divInt 12345 100) := by decide
    rw [h1]
    congr 1
    rw [Rat.divInt_eq_div]
    norm_num
  · have h1 : parse_usdt_balance "123450000" = .fin (Rat.divInt 2469 20) := by decide
    rw [h1]
    congr 1
    rw [Rat.divInt_eq_div]
    norm_num
  · decide
  · decide

/-- Witness for C3 at concrete inputs covering the three universal parts. -/
theorem C3_parse_balance_witness :
    parse_usdt_balance "7.5" = .fin (Rat.divInt 75 10)
    ∧ parse_usdt_balance "2" = pyDecDiv1e6 (.fin (Rat.divInt 2 1))
    ∧ parse_usdt_balance "x" = .fin 0 := by
  refine ⟨?_, ?_, ?_⟩
  · exact C3_parse_balance.1 "7.5" (.fin (Rat.divInt 75 10)) (by decide) (by decide)
  · exact C3_parse_balance.2.1 "2" (.fin (Rat.divInt 2 1)) (by decide) (by decide)
  · exact C3_parse_balance.2.2.1 "x" (by decide)

/-- Claim C5: the extra unfreeze notification is sent exactly when the
previously persisted status is the boolean `true` and the freshly computed
status is `false` — given a run that gets past all its queries and whose
sends succeed, the two emphasis messages appear in the send trace iff the
persisted `blocked` is `True` and the current status is not blacklisted. -/
theorem C5_unfreeze_transition :
    ∀ (env : Env) (pb : Option JVal) (b : Bool) (resp : AccountResponse),
      pyDictGet (load_prev_state env.stateFile) "blocked" = .ok pb →
      is_blacklisted_run env.trigger = .ok b →
      env.account = some resp →
      (∀ i, sendOk env i = true) →
      ((Msg.unfreeze1 ∈ (mainRun env).1 ∧ Msg.unfreeze2 ∈ (mainRun env).1)
        ↔ (pb = some (JVal.jbool true) ∧ b = false)) := by
  intro env pb b resp hpb hb hacc hsend
  have h0 := hsend 0
  have h1 := hsend 1
  have h2 := hsend 2
  simp only [mainRun, hpb, hb, hacc, h0, h1, h2, Bool.not_true, Bool.false_eq_true, if_false]
  cases hcond : isTrueLit pb && !b with
  | true =>
    rw [Bool.and_eq_true] at hcond
    obtain ⟨hl, hr⟩ := hcond
    have hbf : b = false := by
      cases b
      · rfl
      · simp at hr
    apply iff_of_true
    · cases env.saveOk <;> simp
    · exact ⟨(isTrueLit_iff pb).1 hl, hbf⟩
  | false =>
    apply iff_of_false
    · cases env.saveOk <;> simp
    · rintro ⟨hl, hrb⟩
      have hlit : isTrueLit pb = true := (isTrueLit_iff pb).2 hl
      rw [hlit, hrb] at hcond
      simp at hcond

/-- Witness for C5: persisted `{blocked: true}` and a current status of
`false` put both emphasis messages in the trace. -/
theorem C5_unfreeze_transition_witness :
    Msg.unfreeze1 ∈ (mainRun ⟨some (.jobj [("blocked", .jbool true)]),
        some ⟨some ["00"]⟩, some ⟨some []⟩, [], true⟩).1
    ∧ Msg.unfreeze2 ∈ (mainRun ⟨some (.jobj [("blocked", .jbool true)]),
        some ⟨some ["00"]⟩, some ⟨some []⟩, [], true⟩).1 :=
  (C5_unfreeze_transition
    ⟨some (.jobj [("blocked", .jbool true)]), some ⟨some ["00"]⟩, some ⟨some []⟩, [], true⟩
    (some (.jbool true)) false ⟨some []⟩ rfl rfl rfl
    (fun i => by simp [sendOk])).mpr ⟨rfl, rfl⟩

/-- Counterexample to claim C6 as stated: on a run that fails with an empty
contract result, `main` sends nothing at all — there is no top-level handler,
so no error notification is attempted before the exception reaches the
interpreter. -/
theorem C6_error_notification_cex :
    mainRun ⟨none, some ⟨some []⟩, some ⟨some []⟩, [], true⟩
      = ([], .error .runtimeEmptyResult)
    ∧ Msg.errorNote ∉ (mainRun ⟨none, some ⟨some []⟩, some ⟨some []⟩, [], true⟩).1 := by
  refine ⟨rfl, ?_⟩
  rw [show (mainRun ⟨none, some ⟨some []⟩, some ⟨some []⟩, [], true⟩).1 = [] from rfl]
  simp

/-- Claim C6, amended: a runtime failure propagates to the top level and the
process exits nonzero, but no error notification is attempted — the send
trace of a failed run never contains one (the source has no top-level
handler). -/
theorem C6_no_error_notification :
    ∀ (env : Env) (e : PyErr),
      (mainRun env).2 = .error e → Msg.errorNote ∉ (mainRun env).1 := by
  intro env e _he
  unfold mainRun
  repeat' split
  all_goals simp

/-- Witness for C6 (amended) at the failing run of the counterexample. -/
theorem C6_no_error_notification_witness :
    (mainRun ⟨none, some ⟨some []⟩, none, [], true⟩).2 = .error .runtimeEmptyResult
    ∧ Msg.errorNote ∉ (mainRun ⟨none, some ⟨some []⟩, none, [], true⟩).1 :=
  ⟨rfl, C6_no_error_notification ⟨none, some ⟨some []⟩, none, [], true⟩
    .runtimeEmptyResult rfl⟩

/-- Claim C9: a missing or unreadable state file loads as the empty record,
and whenever the loaded state's `blocked` value is not exactly the boolean
`true` — missing file, missing key, or any other value — no unfreeze
notification is sent, regardless of the freshly computed status. -/
theorem C9_state_failures_swallowed :
    load_prev_state none = JVal.jobj []
    ∧ ∀ env : Env,
        (∀ pb, pyDictGet (load_prev_state env.stateFile) "blocked" = .ok pb →
            pb ≠ some (JVal.jbool true)) →
        Msg.unfreeze1 ∉ (mainRun env).1 ∧ Msg.unfreeze2 ∉ (mainRun env).1 := by
  refine ⟨rfl, ?_⟩
  intro env h
  cases hget : pyDictGet (load_prev_state env.stateFile) "blocked" with
  | error e =>
    constructor <;> simp [mainRun, hget]
  | ok pb =>
    have hlit : isTrueLit pb = false := isTrueLit_eq_false (h pb hget)
    constructor <;>
      · simp only [mainRun, hget, hlit, Bool.false_and, Bool.false_eq_true, if_false]
        repeat' split
        all_goals simp

/-- Witness for C9: a state file with `{blocked: false}` and a computed
status of `false` sends no unfreeze message. -/
theorem C9_state_failures_swallowed_witness :
    Msg.unfreeze1 ∉ (mainRun ⟨some (.jobj [("blocked", .jbool false)]),
        some ⟨some ["00"]⟩, some ⟨some []⟩, [], true⟩).1
    ∧ Msg.unfreeze2 ∉ (mainRun ⟨some (.jobj [("blocked", .jbool false)]),
        some ⟨some ["00"]⟩, some ⟨some []⟩, [], true⟩).1 :=
  C9_state_failures_swallowed.2
    ⟨some (.jobj [("blocked", .jbool false)]), some ⟨some ["00"]⟩, some ⟨some []⟩, [], true⟩
    (fun pb hpb => by
      rw [show pyDictGet (load_prev_state (some (.jobj [("blocked", JVal.jbool false)])))
          "blocked" = .ok (some (JVal.jbool false)) from rfl] at hpb
      injection hpb with hpb
      rw [← hpb]
      simp)

/-- Claim C10: the display formatter is total by construction, and when
quantization to the requested digit count fails (`InvalidOperation`), the
result is exactly what formatting zero at that digit count produces. -/
theorem C10_formatter_total :
    ∀ (d : PyDec) (n : Nat), pyQuantize d n = none →
      fmt_like_site d n = fmt_like_site (.fin 0) n := by
  intro d n h
  simp only [fmt_like_site, fmtChars, h, pyQuantize_zero]

/-- Witness for C10: an infinite operand makes quantize signal, and the
output coincides with the formatted zero. -/
theorem C10_formatter_total_witness :
    pyQuantize (.inf true) 2 = none
    ∧ fmt_like_site (.inf true) 2 = fmt_like_site (.fin 0) 2 :=
  ⟨rfl, C10_formatter_total (.inf true) 2 rfl⟩

/-- Counterexample to claim C8 as stated: the normalization routine maps the
possible gateway string `"-1"` to the negative amount `-(1/1000000)`, so not
every gateway input yields a non-negative output. -/
theorem C8_nonneg_cex :
    parse_usdt_balance "-1" = .fin (-(1 / 1000000 : ℚ))
    ∧ ¬ decNonneg (parse_usdt_balance "-1") := by
  have h1 : parse_usdt_balance "-1" = .fin (Rat.divInt (-1) 1000000) := by decide
  have h2 : Rat.divInt (-1) 1000000 = -(1 / 1000000 : ℚ) := by
    rw [Rat.divInt_eq_div]
    norm_num
  constructor
  · rw [h1, h2]
  · rw [h1, h2]
    show ¬ (0 : ℚ) ≤ -(1 / 1000000 : ℚ)
    norm_num

/-- Claim C8, amended: whenever every value the gateway supplies is
non-negative — each parsed token string that parses denotes a non-negative
finite decimal, and the reported integer balance is non-negative — the
outputs of the normalization and balance-query routines are non-negative. -/
theorem C8_nonneg_amended :
    (∀ raw : String,
        (∀ d, pyDecimalParse (stripChars raw.data) = some d → decNonneg d) →
        decNonneg (parse_usdt_balance raw))
    ∧ (∀ resp : AccountResponse,
        (∀ (d : AccountData) (rest : List AccountData), resp.data.getD [] = d :: rest →
            0 ≤ d.balance.getD 0
            ∧ (∀ x, pyDecimalParse (stripChars (findUsdtRaw (d.trc20.getD [])).data) = some x →
                decNonneg x)) →
        decNonneg (get_balances resp).1 ∧ decNonneg (get_balances resp).2) := by
  have main1 : ∀ raw : String,
      (∀ d, pyDecimalParse (stripChars raw.data) = some d → decNonneg d) →
      decNonneg (parse_usdt_balance raw) := by
    intro raw h
    by_cases hcase : stripChars raw.data = [] ∨
        lowerChars (stripChars raw.data) = ['n', 'o', 'n', 'e']
    · simp only [parse_usdt_balance, if_pos hcase]
      exact le_refl (0 : ℚ)
    · cases hdot : (stripChars raw.data).contains '.' with
      | true =>
        cases hp : pyDecimalParse (stripChars raw.data) with
        | none =>
          simp only [parse_usdt_balance, if_neg hcase, hdot, if_true, hp]
          exact le_refl (0 : ℚ)
        | some d =>
          simp only [parse_usdt_balance, if_neg hcase, hdot, if_true, hp]
          exact h d hp
      | false =>
        cases hp : pyDecimalParse (stripChars raw.data) with
        | none =>
          simp only [parse_usdt_balance, if_neg hcase, hdot, Bool.false_eq_true, if_false, hp]
          exact le_refl (0 : ℚ)
        | some d =>
          simp only [parse_usdt_balance, if_neg hcase, hdot, Bool.false_eq_true, if_false, hp]
          have hd := h d hp
          cases d with
          | fin q => exact qDiv1e6_nonneg hd
          | nan => exact hd.elim
          | inf s => exact hd.elim
  refine ⟨main1, ?_⟩
  intro resp h
  cases hdata : resp.data.getD [] with
  | nil =>
    constructor <;>
      · simp only [get_balances, hdata]
        exact le_refl (0 : ℚ)
  | cons d rest =>
    obtain ⟨hbal, htok⟩ := h d rest hdata
    constructor
    · simp only [get_balances, hdata]
      exact main1 _ htok
    · simp only [get_balances, hdata]
      show (0 : ℚ) ≤ Rat.divInt (d.balance.getD 0) 1000000
      rw [divInt_cast_div]
      exact div_nonneg (by exact_mod_cast hbal) (by norm_num)

/-- Witness for C8 (amended) at a concrete non-negative gateway response. -/
theorem C8_nonneg_witness :
    decNonneg (get_balances ⟨some [⟨some 5, some [.dict [(USDT_CONTRACT, "1500000")]]⟩]⟩).1
    ∧ decNonneg (get_balances ⟨some [⟨some 5, some [.dict [(USDT_CONTRACT, "1500000")]]⟩]⟩).2 :=
  C8_nonneg_amended.2 ⟨some [⟨some 5, some [.dict [(USDT_CONTRACT, "1500000")]]⟩]⟩
    (fun d rest hd => by
      injection hd with h1 h2
      constructor
      · rw [← h1]
        decide
      · intro x hx
        rw [← h1] at hx
        rw [show pyDecimalParse (stripChars (findUsdtRaw
            ((⟨some 5, some [.dict [(USDT_CONTRACT, "1500000")]]⟩ : AccountData).trc20.getD
              [])).data) = some (.fin (Rat.divInt 1500000 1)) from by decide] at hx
        injection hx with hx
        rw [← hx]
        show (0 : ℚ) ≤ Rat.divInt 1500000 1
        decide)

/-- Successful quantization of a non-negative finite amount: the coefficient
is the half-even rounding of the scaled value, the sign positive. -/
theorem pyQuantize_fin_pos {q : ℚ} {n : Nat} (h0 : 0 ≤ q)
    (hc : roundHalfEven (qAbsScale q n) < 10 ^ 28) :
    pyQuantize (.fin q) n = some (.fin false (roundHalfEven (qAbsScale q n)).toNat) := by
  have hscale : (0 : ℚ) ≤ qAbsScale q n := by
    rw [qAbsScale_eq]
    positivity
  have hnn := roundHalfEven_nonneg hscale
  have hcn : (roundHalfEven (qAbsScale q n)).toNat < 10 ^ 28 := by
    have h2 : ((roundHalfEven (qAbsScale q n)).toNat : Int) < (10 : Int) ^ 28 := by
      rw [Int.toNat_of_nonneg hnn]
      exact_mod_cast hc
    exact_mod_cast h2
  unfold pyQuantize
  dsimp only
  rw [decide_eq_false (not_lt.mpr h0), if_pos hcn]

/-- Claim C7, amended: for every non-negative amount whose half-even rounded
coefficient at `n ≥ 1` fractional digits stays below the 28-digit context
precision, the formatter emits that coefficient quantized to exactly `n`
fractional digits with the integer part grouped by thousands separators.
(Quantization overflow falls back to zero per the fallback rule, and digit
count 0 produces no decimal point and no separators.) -/
theorem C7_fixed_digits_amended :
    ∀ (q : ℚ) (n : Nat), 0 ≤ q → 1 ≤ n →
      roundHalfEven (qAbsScale q n) < 10 ^ 28 →
      fmt_like_site (.fin q) n =
        String.mk (commaChars ((roundHalfEven (qAbsScale q n)).toNat / 10 ^ n)
          ++ '.' :: fracDigits ((roundHalfEven (qAbsScale q n)).toNat) n) := by
  intro q n h0 h1 hc
  have hquant := pyQuantize_fin_pos h0 hc
  unfold fmt_like_site
  congr 1
  unfold fmtChars
  rw [hquant]
  dsimp only
  rw [show formatQRes (QRes.fin false (roundHalfEven (qAbsScale q n)).toNat) n
      = natToDecChars ((roundHalfEven (qAbsScale q n)).toNat / 10 ^ n) ++ '.' ::
        fracDigits ((roundHalfEven (qAbsScale q n)).toNat) n from by
    show formatQ false _ n = _
    unfold formatQ
    rw [if_neg (show ¬ n = 0 by omega)]
    simp]
  rw [contains_append_dot]
  simp only [if_true]
  have hA : ∀ ch ∈ natToDecChars ((roundHalfEven (qAbsScale q n)).toNat / 10 ^ n),
      (ch != '.') = true :=
    fun ch hch => isDigit_bne_dot (natToDecChars_all_digit _ ch hch)
  rw [takeWhile_append_stop hA (by decide), dropWhile_append_stop hA (by decide)]
  dsimp only [List.tail_cons]
  rw [pyIntParse10_natToDecChars]
  simp only [Option.getD_some]
  unfold intCommaChars
  rw [if_neg (Int.not_lt.mpr (Int.natCast_nonneg _)), Int.toNat_natCast]
  simp

/-- Counterexample to claim C7 as stated: at digit count 0 the output of the
formatter has no thousands separators (`1234.5 → "1234"`, not `"1,234"`),
and an amount whose quantized coefficient exceeds the 28-digit context
precision is not quantized at all but replaced by zero (`10^30 → "0.00"`). -/
theorem C7_fixed_digits_cex :
    fmt_like_site (.fin (Rat.divInt 2469 2)) 0 = "1234"
    ∧ fmt_like_site (.fin (Rat.divInt ((10 : Int) ^ 30) 1)) 2 = "0.00"
    ∧ ("1234" : String) ≠ "1,234"
    ∧ ("0.00" : String) ≠ "1,000,000,000,000,000,000,000,000,000,000.00" :=
  ⟨by decide, by decide, by decide, by decide⟩

/-- Witness for C7 (amended): `format(1234.5)` at 2 decimals is
`"1,234.50"`. -/
theorem C7_fixed_digits_witness :
    fmt_like_site (.fin (Rat.divInt 2469 2)) 2 = "1,234.50" := by
  have h := C7_fixed_digits_amended (Rat.divInt 2469 2) 2 (by decide) (by norm_num) (by decide)
  rw [h]
  decide
